import Mathlib

/-!
Verification development for the `affordance_gym` training script
(`scripts/perception_policy_train.py`) and its utilities
(`src/affordance_gym/utils.py`).

Shallow embedding conventions:
* Scalars are modelled by `ℚ`; numpy / torch tensors by nested lists of `ℚ`.
* Third-party model objects (the trajectory VAE decoder, the `Predictor`
  policy network, forward kinematics `end_effector_pose`, and the Adam
  optimizer step) are opaque parameters collected in a `Models` structure:
  the script treats them as black boxes, so the embedding does too.
* Randomness (the `random_split` permutation, shuffling, and the numpy RNG
  draw in debug mode) is supplied by the caller as an explicit argument; a
  theorem quantifying over that argument covers every realisation.
* Fallible library operations return `Except PyErr`, where `PyErr`
  distinguishes the script's own `assert` from exceptions raised inside
  libraries (`np.concatenate` on an empty list, `random_split` with
  mismatched lengths, `DataLoader` with `batch_size = 0`, out-of-range
  numpy indexing).
* The expression `int(dataset.__len__() * 0.7)` is evaluated in IEEE-754
  double arithmetic; `float07TimesInt` below is an exact model of the double
  product `n * 0.7` (round-to-nearest, ties-to-even) followed by `int`
  truncation.
-/

/-- A numeric vector (one row of a numpy / torch array). -/
abbrev Vec := List ℚ

/-- One dataset sample: a perception latent paired with a 3-D target
coordinate, as produced by `load_dataset`. -/
abbrev Sample := Vec × Vec

/-! ### Exact model of the IEEE-754 double product `n * 0.7`

The Python literal `0.7` denotes the double `3152519739159347 / 2^52`.
For a nonnegative integer `n`, the product `n * 0.7` is the real number
`n * 3152519739159347 / 2^52` rounded to 53 significant bits with
round-to-nearest, ties-to-even; `int(...)` then truncates toward zero. -/

/-- Mantissa of the IEEE-754 double nearest to `0.7`: the literal `0.7`
in the source denotes exactly `double07Mantissa / 2^52`. -/
def double07Mantissa : ℕ := 3152519739159347

/-- Fuelled bit-length helper: `bitlenAux f n` is the number of binary
digits of `n`, provided `n ≤ f`. -/
def bitlenAux : ℕ → ℕ → ℕ
  | 0, _ => 0
  | f + 1, n => if n = 0 then 0 else bitlenAux f (n / 2) + 1

/-- Number of binary digits of `n` (0 for 0). -/
def bitlen (n : ℕ) : ℕ := bitlenAux n n

/-- Exponent of the unit in the last place when rounding `p` to 53
significant bits (meaningful for `p ≥ 2^53`). -/
def ulpExp (p : ℕ) : ℕ := bitlen p - 53

/-- Round a nonnegative integer to 53 significant bits,
round-to-nearest with ties-to-even.  This is exactly how the real number
`p / 2^52` is rounded to the nearest IEEE-754 double (scaled by `2^52`),
for any `p` in the double exponent range. -/
def roundSig53 (p : ℕ) : ℕ :=
  if p < 2 ^ 53 then p
  else if 2 ^ (ulpExp p - 1) < p % 2 ^ ulpExp p
      ∨ (p % 2 ^ ulpExp p = 2 ^ (ulpExp p - 1) ∧ p / 2 ^ ulpExp p % 2 = 1) then
    (p / 2 ^ ulpExp p + 1) * 2 ^ ulpExp p
  else p / 2 ^ ulpExp p * 2 ^ ulpExp p

/-- The integer obtained by Python's `int(n * 0.7)` where `n : ℕ` and the
multiplication is IEEE-754 double arithmetic: round `n * double07Mantissa`
to 53 significant bits, then divide by `2^52` (truncation toward zero on a
nonnegative value is floor, which is `ℕ` division). -/
def float07TimesInt (n : ℕ) : ℕ := roundSig53 (n * double07Mantissa) / 2 ^ 52

/-- Training-set size computed by `main`:
`train_size = int(dataset.__len__() * 0.7)`. -/
def train_size (n : ℕ) : ℕ := float07TimesInt n

/-- Test-set size computed by `main`:
`test_size = dataset.__len__() - train_size`. -/
def test_size (n : ℕ) : ℕ := n - train_size n

/-! ### Exceptions

The script performs exactly one check of its own, `assert(args.model_index > 0)`;
every other failure originates inside a library call and propagates unchanged
(there is no `try`/`except` anywhere in the repository). -/

/-- Exceptions in the model: the script's own `assert` versus exceptions
raised inside third-party libraries and propagated unchanged. -/
inductive PyErr where
  | assertionError : PyErr
  | libraryError : String → PyErr
  deriving DecidableEq, Repr

/-! ### Third-party components

`ROSTrajectoryVAE`, its decoder, `to_trajectory`, the `Predictor` policy
network, `end_effector_pose` (forward kinematics) and the Adam optimizer
live in external packages; the script calls them as black boxes.  They are
modelled as fields of `Models`, with the policy's trainable parameters as
an abstract type `P` mutated only by `optimStep` (which stands for
`loss.backward(); optimizer.step(); optimizer.zero_grad()` on a batch).
`minAngle`/`maxAngle` are the constants `MIN_ANGLE`/`MAX_ANGLE` imported
from `behavioural_vae.utils`. -/

structure Models (P : Type) where
  policyFwd : P → Vec → Vec
  optimStep : P → List Sample → P
  decoder : Vec → Vec
  toTrajectory : Vec → List Vec
  endEffectorPose : Vec → Vec
  minAngle : ℚ
  maxAngle : ℚ

/-! ### numpy / torch primitives used by the script -/

/-- Sum of squared componentwise differences of two equal-length rows. -/
def sqDiffSum (a b : Vec) : ℚ := ((a.zip b).map fun p => (p.1 - p.2) ^ 2).sum

/-- Model of `F.mse_loss(pred, target)`: the mean of the squared differences over
all elements of the two (equal-shaped) batched tensors. -/
def mse_loss (pred target : List Vec) : ℚ :=
  ((pred.zip target).map fun p => sqDiffSum p.1 p.2).sum
    / ((target.map List.length).sum : ℚ)

/-- Model of `np.mean` of a list of scalars.  (`np.mean([])` is NaN with a runtime
warning, not an exception; in every run modelled here an empty list reaches
`np.concatenate` first, which raises, so the value for `[]` is never
observable.) -/
def np_mean (xs : List ℚ) : ℚ := xs.sum / (xs.length : ℚ)

/-- Model of `np.concatenate`: raises `ValueError` on an empty list of arrays,
otherwise stacks the per-batch arrays into one. -/
def np_concatenate (arrays : List (List α)) : Except PyErr (List α) :=
  if arrays.isEmpty then
    .error (PyErr.libraryError ("ValueError: need at least one array to concatenate"))
  else .ok arrays.flatten

/-- Model of `torch.utils.data.random_split(dataset, (n1, n2))` applied to an
already-permuted dataset (the random permutation is supplied by the caller
as the order of `ds`): the library raises when the requested lengths do not
sum to the dataset length. -/
def random_split (ds : List α) (n1 n2 : ℕ) : Except PyErr (List α × List α) :=
  if n1 + n2 = ds.length then .ok (ds.take n1, ds.drop n1)
  else .error (PyErr.libraryError
    ("ValueError: Sum of input lengths does not equal the length of the input dataset"))

/-- Fuelled chunking used to model `DataLoader` batching (the fuel is the
list length, which suffices whenever `bs ≥ 1`). -/
def chunksAux (bs : ℕ) : ℕ → List α → List (List α)
  | _, [] => []
  | 0, _ :: _ => []
  | f + 1, x :: xs => (x :: xs).take bs :: chunksAux bs f ((x :: xs).drop bs)

/-- Model of `DataLoader(dataset, batch_size=bs, ...)` as the list of batches it
yields: consecutive chunks of size `bs` (the last possibly shorter).
The shuffled order is supplied by the caller as the order of `xs`; the
`num_workers` parameter only parallelises loading and does not change the
yielded batches.  `DataLoader` raises `ValueError` on `batch_size = 0`. -/
def data_loader_batches (bs : ℕ) (xs : List α) : Except PyErr (List (List α)) :=
  if bs = 0 then
    .error (PyErr.libraryError ("ValueError: batch_size should be a positive integer value"))
  else .ok (chunksAux bs xs.length xs)

/-! ### The per-batch pipeline (lines 92-125 and 141-169 of
`perception_policy_train.py`) -/

/-- The per-sample composition the spec describes: policy, trajectory
decoding, reshaping, last joint pose, unnormalisation by
`(MAX_ANGLE - MIN_ANGLE) * x + MIN_ANGLE`, then forward kinematics. -/
def endPoseOf (M : Models P) (p : P) (l1 : Vec) : Vec :=
  M.endEffectorPose
    (((M.toTrajectory (M.decoder (M.policyFwd p l1))).map fun joint =>
        joint.getLastD 0).map fun x => (M.maxAngle - M.minAngle) * x + M.minAngle)

/-- Accumulator of the training loop body: the mutable policy parameters
plus the lists grown by `append` calls (lines 87-90, 122-125). -/
structure TrainAcc (P : Type) where
  params : P
  train_losses : List ℚ
  end_poses : List (List Vec)
  target_poses : List (List Vec)
  latents : List (List Vec)

/-- One iteration of the training loop (lines 92-125): forward through the
policy and the trajectory decoder, reshape, take the last joint pose,
unnormalise, forward kinematics, MSE loss, optimizer step, record. -/
def trainBatchStep (M : Models P) (acc : TrainAcc P) (batch : List Sample) :
    TrainAcc P :=
  let latent_1 := batch.map Prod.fst
  let target_pose := batch.map Prod.snd
  let latent_2 := latent_1.map (M.policyFwd acc.params)
  let trajectories := latent_2.map M.decoder
  let trajectoriesR := trajectories.map M.toTrajectory
  let end_joint_pose := trajectoriesR.map fun t => t.map fun joint => joint.getLastD 0
  let end_joint_unnorm := end_joint_pose.map fun v =>
    v.map fun x => (M.maxAngle - M.minAngle) * x + M.minAngle
  let end_pose := end_joint_unnorm.map M.endEffectorPose
  let loss := mse_loss end_pose target_pose
  { params := M.optimStep acc.params batch
    train_losses := acc.train_losses ++ [loss]
    end_poses := acc.end_poses ++ [end_pose]
    target_poses := acc.target_poses ++ [target_pose]
    latents := acc.latents ++ [latent_2] }

/-- Accumulator of the validation loop body (lists reset at lines 137-139;
`latents` carries over from the training loop, line 90). -/
structure ValAcc where
  val_losses : List ℚ
  end_poses : List (List Vec)
  target_poses : List (List Vec)
  latents : List (List Vec)

/-- One iteration of the validation loop (lines 141-169).  Note the source
appends `end_pose` twice, at line 164 and again at line 167. -/
def valBatchStep (M : Models P) (params : P) (acc : ValAcc) (batch : List Sample) :
    ValAcc :=
  let latent_1 := batch.map Prod.fst
  let target_pose := batch.map Prod.snd
  let latent_2 := latent_1.map (M.policyFwd params)
  let trajectories := latent_2.map M.decoder
  let trajectoriesR := trajectories.map M.toTrajectory
  let end_joint_pose := trajectoriesR.map fun t => t.map fun joint => joint.getLastD 0
  let end_joint_unnorm := end_joint_pose.map fun v =>
    v.map fun x => (M.maxAngle - M.minAngle) * x + M.minAngle
  let end_pose := end_joint_unnorm.map M.endEffectorPose
  let loss := mse_loss end_pose target_pose
  { val_losses := acc.val_losses ++ [loss]
    end_poses := acc.end_poses ++ [end_pose] ++ [end_pose]
    target_poses := acc.target_poses ++ [target_pose]
    latents := acc.latents ++ [latent_2] }

/-! ### Checkpointing (lines 75 and 179-181) -/

/-- The comparison `avg_loss < best_val`, where `best_val` starts at
`np.inf` (modelled by `none`). -/
def improved (avg_loss : ℚ) (best_val : Option ℚ) : Bool :=
  match best_val with
  | none => true
  | some b => decide (avg_loss < b)

/-- The checkpoint decisions over a sequence of per-epoch average
validation losses: mirrors `best_val = np.inf` (line 75) and
`if avg_loss < best_val: best_val = avg_loss; torch.save(...)`
(lines 179-181), one Boolean per epoch. -/
def saveFlagsAux (best_val : Option ℚ) : List ℚ → List Bool
  | [] => []
  | l :: ls =>
    improved l best_val ::
      saveFlagsAux (if improved l best_val then some l else best_val) ls

/-- Per-epoch checkpoint decisions for a run whose epochs produce the given
average validation losses. -/
def saveFlags (ls : List ℚ) : List Bool := saveFlagsAux none ls

/-! ### The epoch loop of `main` (lines 75-191) -/

/-- State carried across epochs: policy parameters, the running best
validation loss, the two loss-curve lists (lines 77-78), the per-epoch
checkpoint decisions, the files written to `save_path` so far (in write
order, duplicates allowed), and the number of completed epoch iterations. -/
structure RunState (P : Type) where
  params : P
  best_val : Option ℚ
  avg_train_losses : List ℚ
  avg_val_losses : List ℚ
  save_log : List Bool
  files : List String
  epochs : ℕ

/-- The six plot files written at the end of every epoch
(lines 183-191). -/
def plot_files : List String :=
  ["train_scatter.png", "val_scatter.png", "full_scatter.png",
   "latents_distribution.png", "avg_mse.png", "avg_log_mse.png"]

/-- One epoch of `main` (lines 81-191): training pass, training-loss
average and scatter data, validation pass, validation-loss average,
checkpoint decision, plots. -/
def runEpoch (M : Models P) (trainBatches valBatches : List (List Sample))
    (st : RunState P) : Except PyErr (RunState P) := do
  let ta := trainBatches.foldl (trainBatchStep M)
    { params := st.params, train_losses := [], end_poses := []
      target_poses := [], latents := [] }
  let avg_train := np_mean ta.train_losses
  let _train_poses ← np_concatenate ta.end_poses
  let _train_targets ← np_concatenate ta.target_poses
  let va := valBatches.foldl (valBatchStep M ta.params)
    { val_losses := [], end_poses := [], target_poses := [], latents := ta.latents }
  let avg_val := np_mean va.val_losses
  let _val_poses ← np_concatenate va.end_poses
  let _val_targets ← np_concatenate va.target_poses
  let _latents_all ← np_concatenate va.latents
  let save := improved avg_val st.best_val
  let files1 := if save then st.files ++ ["model.pth.tar"] else st.files
  return { params := ta.params
           best_val := if save then some avg_val else st.best_val
           avg_train_losses := st.avg_train_losses ++ [avg_train]
           avg_val_losses := st.avg_val_losses ++ [avg_val]
           save_log := st.save_log ++ [save]
           files := files1 ++ plot_files
           epochs := st.epochs + 1 }

/-! ### `main` (lines 39-191) -/

/-- Command-line arguments relevant to the modelled behaviour, with the
defaults fixed by `parse_arguments` in `utils.py`. -/
structure Args where
  policy_name : String
  model_index : ℤ
  num_epoch : ℕ
  batch_size : ℕ
  num_processes : ℕ
  debug : Bool

/-- The output directory `../policy_log/<policy-name>` (line 41). -/
def save_path (a : Args) : String := "../policy_log/" ++ a.policy_name

/-- Model of `main` after the dataset has been loaded: `save_arguments` creates the
output directory and writes `arguments.txt`; the `assert` on
`args.model_index`; the 0.7 split; the two loaders; then `num_epoch`
iterations of the epoch body.  The model construction
(`ROSTrajectoryVAE`, `Predictor`, Adam) is represented by `M` and
`initParams`; the dataset argument `ds` is the loaded dataset in the
(random) order chosen by `random_split`'s permutation. -/
def runMain (M : Models P) (initParams : P) (a : Args) (ds : List Sample) :
    Except PyErr (RunState P) := do
  let files0 := ["arguments.txt"]
  if ¬ 0 < a.model_index then throw PyErr.assertionError
  let n := ds.length
  let tr := train_size n
  let te := test_size n
  let (trainset, testset) ← random_split ds tr te
  let trainBatches ← data_loader_batches a.batch_size trainset
  let valBatches ← data_loader_batches testset.length testset
  let st0 : RunState P :=
    { params := initParams, best_val := none, avg_train_losses := []
      avg_val_losses := [], save_log := [], files := files0, epochs := 0 }
  (List.range a.num_epoch).foldlM (fun st _ => runEpoch M trainBatches valBatches st) st0

/-! ### `load_dataset` (lines 17-35)

The pickle holds a pair `(latents, target_coord)`: a three-axis array
(samples x traj x latent-dim), modelled as `List (List Vec)`, and a
two-axis array of target coordinates, modelled as `List Vec`. -/

/-- The slice `latents[:, 0, :]` (line 23): the first entry along the
middle axis of every sample.  numpy raises `IndexError` when the middle
axis has size 0. -/
def sliceMiddleFirst (latents : List (List Vec)) : Except PyErr (List Vec) :=
  if latents.all fun row => ¬ row.isEmpty then
    .ok (latents.map fun row => row.headD [])
  else .error (PyErr.libraryError ("IndexError: index 0 is out of bounds for axis 1 with size 0"))

/-- numpy fancy indexing `xs[ixs]` on the first axis: `IndexError` when
any index is out of bounds. -/
def np_index (xs : List Vec) (ixs : List ℕ) : Except PyErr (List Vec) :=
  if ixs.all fun i => decide (i < xs.length) then
    .ok (ixs.map fun i => xs.getD i [])
  else .error (PyErr.libraryError ("IndexError: index is out of bounds for axis 0"))

/-- Model of `torch.utils.data.TensorDataset(latents, target_coord)`: the list of
`(latent, target)` pairs; torch asserts that all tensors have the same
first-axis size. -/
def tensor_dataset (latents target_coord : List Vec) : Except PyErr (List Sample) :=
  if latents.length = target_coord.length then .ok (latents.zip target_coord)
  else .error (PyErr.libraryError ("AssertionError: Size mismatch between tensors"))

/-- The outputs `np.random.random_integers(low, high, size)` can produce:
`size` integers drawn from `low` to `high` INCLUSIVE of both endpoints
(numpy documents `random_integers` as closed-interval sampling, unlike
`randint`).  The concrete draw is supplied by the caller. -/
def random_integers_possible (low high size : ℕ) (draw : List ℕ) : Prop :=
  draw.length = size ∧ ∀ i ∈ draw, low ≤ i ∧ i ≤ high

/-- Model of `load_dataset` (lines 17-35): slice the middle axis, optionally
subsample 10 random rows in debug mode (the RNG draw is the caller-supplied
`draw`, any output of `random_integers(0, len(latents), 10)`), then build
the `TensorDataset`. -/
def load_dataset (latents3 : List (List Vec)) (target_coord : List Vec)
    (debug : Bool) (draw : List ℕ) : Except PyErr (List Sample) := do
  let latents ← sliceMiddleFirst latents3
  if debug then
    let latentsD ← np_index latents draw
    let targetD ← np_index target_coord draw
    tensor_dataset latentsD targetD
  else
    tensor_dataset latents target_coord

/-! ### Concrete instances used to exercise the model -/

/-- A concrete instantiation of the third-party components, used to run
the embedded script on concrete inputs. -/
def trivialModels : Models Unit :=
  { policyFwd := fun _ _ => [0], optimStep := fun p _ => p, decoder := id,
    toTrajectory := fun v => [v], endEffectorPose := fun _ => [0, 0, 0],
    minAngle := 0, maxAngle := 1 }

/-- Arguments with the `parse_arguments` defaults, with a chosen epoch
count and model index. -/
def baseArgs (ne : ℕ) (mi : ℤ) : Args :=
  { policy_name := "model_v1", model_index := mi, num_epoch := ne,
    batch_size := 124, num_processes := 16, debug := false }

/-- A concrete dataset sample: latent `[0]`, 3-D target `[0, 0, 0]`. -/
def sampleZero : Sample := ([0], [0, 0, 0])

/-- A concrete stored latents array with five samples (middle axis of
size one, latent dimension one). -/
def latentsFive : List (List Vec) := List.replicate 5 [[0]]

/-- Five concrete 3-D target coordinates. -/
def targetFive : List Vec := List.replicate 5 [0, 0, 0]

/-! ### Facts about the modelled split sizes -/

theorem bitlenAux_zero (f : ℕ) : bitlenAux f 0 = 0 := by
  cases f <;> simp [bitlenAux]

theorem bitlenAux_spec (f : ℕ) : ∀ n : ℕ, n ≤ f →
    n < 2 ^ bitlenAux f n ∧ (1 ≤ n → 2 ^ (bitlenAux f n - 1) ≤ n) := by
  induction f with
  | zero =>
    intro n hn
    have h0 : n = 0 := by omega
    subst h0
    rw [bitlenAux_zero]
    simp
  | succ f ih =>
    intro n hn
    by_cases h0 : n = 0
    · subst h0
      rw [bitlenAux_zero]
      simp
    · have h1 : 1 ≤ n := Nat.one_le_iff_ne_zero.mpr h0
      have hdiv : n / 2 ≤ f := by
        have hlt : n / 2 < n := Nat.div_lt_self h1 one_lt_two
        omega
      obtain ⟨hub, hlb⟩ := ih (n / 2) hdiv
      have heq : bitlenAux (f + 1) n = bitlenAux f (n / 2) + 1 := by
        simp [bitlenAux, h0]
      constructor
      · rw [heq, pow_succ]
        omega
      · intro _
        rw [heq]
        simp only [Nat.add_sub_cancel]
        by_cases hz : n / 2 = 0
        · have hn1 : n = 1 := by omega
          rw [hz, bitlenAux_zero, hn1]
          norm_num
        · have hz1 : 1 ≤ n / 2 := Nat.one_le_iff_ne_zero.mpr hz
          have hlb2 := hlb hz1
          have hble : 1 ≤ bitlenAux f (n / 2) := by
            by_contra hc
            have hbz : bitlenAux f (n / 2) = 0 := by omega
            rw [hbz] at hub
            omega
          have hsplit : bitlenAux f (n / 2) = bitlenAux f (n / 2) - 1 + 1 := by
            omega
          rw [hsplit, pow_succ]
          omega

theorem bitlen_spec (n : ℕ) :
    n < 2 ^ bitlen n ∧ (1 ≤ n → 2 ^ (bitlen n - 1) ≤ n) :=
  bitlenAux_spec n n (le_refl n)

theorem roundSig53_le (p : ℕ) : roundSig53 p ≤ p + p / 2 ^ 53 := by
  unfold roundSig53
  by_cases hp : p < 2 ^ 53
  · rw [if_pos hp]
    exact Nat.le_add_right p _
  · simp only [hp, if_false]
    have hp53 : 2 ^ 53 ≤ p := Nat.le_of_not_lt hp
    obtain ⟨hub, hlb⟩ := bitlen_spec p
    have hbl : 54 ≤ bitlen p := by
      by_contra hc
      have hle : bitlen p ≤ 53 := by omega
      have : (2 : ℕ) ^ bitlen p ≤ 2 ^ 53 := Nat.pow_le_pow_right (by omega) hle
      omega
    have hs : ulpExp p = bitlen p - 53 := rfl
    have hs1 : 1 ≤ ulpExp p := by omega
    have hqr := Nat.div_add_mod p (2 ^ ulpExp p)
    -- the half-ulp bound: 2^(ulpExp p - 1) ≤ p / 2^53
    have hhalf : 2 ^ (ulpExp p - 1) ≤ p / 2 ^ 53 := by
      rw [Nat.le_div_iff_mul_le (by positivity)]
      have hpow : 2 ^ (ulpExp p - 1) * 2 ^ 53 = 2 ^ (bitlen p - 1) := by
        rw [← pow_add]
        congr 1
        omega
      rw [hpow]
      exact hlb (by omega)
    have hcomm : p / 2 ^ ulpExp p * 2 ^ ulpExp p =
        2 ^ ulpExp p * (p / 2 ^ ulpExp p) := Nat.mul_comm _ _
    by_cases hcond : 2 ^ (ulpExp p - 1) < p % 2 ^ ulpExp p
        ∨ (p % 2 ^ ulpExp p = 2 ^ (ulpExp p - 1) ∧ p / 2 ^ ulpExp p % 2 = 1)
    · simp only [hcond, if_true]
      have hrlow : 2 ^ (ulpExp p - 1) ≤ p % 2 ^ ulpExp p := by
        rcases hcond with h | ⟨h, _⟩
        · omega
        · omega
      have hpow : 2 ^ ulpExp p = 2 ^ (ulpExp p - 1) * 2 := by
        rw [← pow_succ, Nat.sub_add_cancel hs1]
      have hexp : (p / 2 ^ ulpExp p + 1) * 2 ^ ulpExp p =
          p / 2 ^ ulpExp p * 2 ^ ulpExp p + 2 ^ ulpExp p := by ring
      omega
    · simp only [hcond, if_false]
      omega

theorem train_size_lt (n : ℕ) (h : 1 ≤ n) : train_size n < n := by
  have h1 := roundSig53_le (n * double07Mantissa)
  unfold train_size float07TimesInt
  have e53 : (2 : ℕ) ^ 53 = 9007199254740992 := by norm_num
  have e52 : (2 : ℕ) ^ 52 = 4503599627370496 := by norm_num
  have eC : double07Mantissa = 3152519739159347 := rfl
  rw [e53, eC] at h1
  rw [e52, eC]
  omega

theorem train_size_le (n : ℕ) : train_size n ≤ n := by
  cases n with
  | zero => decide
  | succ m => exact Nat.le_of_lt (train_size_lt (m + 1) (Nat.succ_le_succ (Nat.zero_le m)))

theorem train_size_add_test_size (n : ℕ) : train_size n + test_size n = n := by
  have := train_size_le n
  unfold test_size
  omega


/-! ### C1: the checkpoint logic -/

theorem saveFlagsAux_getD : ∀ (L : List ℚ) (best : Option ℚ) (i : ℕ), i < L.length →
    ((saveFlagsAux best L).getD i false = true ↔
      ((∀ y ∈ L.take i, L.getD i 0 < y) ∧ ∀ b, best = some b → L.getD i 0 < b)) := by
  intro L
  induction L with
  | nil =>
    intro best i h
    simp at h
  | cons l ls ih =>
    intro best i h
    cases i with
    | zero =>
      cases best with
      | none => simp [saveFlagsAux, improved]
      | some b => simp [saveFlagsAux, improved]
    | succ i =>
      have h2 : i < ls.length := by simpa using h
      have key := ih (if improved l best then some l else best) i h2
      simp only [saveFlagsAux, List.getD_cons_succ, List.take_succ_cons,
        List.mem_cons] at key ⊢
      rw [key]
      cases best with
      | none =>
        have himp : improved l none = true := rfl
        simp only [himp, if_true]
        constructor
        · rintro ⟨hA, hC⟩
          have hxl : ls.getD i 0 < l := hC l rfl
          exact ⟨fun y hy => by rcases hy with rfl | hy; exact hxl; exact hA y hy,
            by simp⟩
        · rintro ⟨hA, _⟩
          exact ⟨fun y hy => hA y (Or.inr hy), fun b hb => by
            cases hb
            exact hA l (Or.inl rfl)⟩
      | some b0 =>
        by_cases hlb : l < b0
        · have himp : improved l (some b0) = true := by
            simp [improved, hlb]
          simp only [himp, if_true]
          constructor
          · rintro ⟨hA, hC⟩
            have hxl : ls.getD i 0 < l := hC l rfl
            refine ⟨fun y hy => ?_, fun b hb => ?_⟩
            · rcases hy with rfl | hy
              · exact hxl
              · exact hA y hy
            · cases hb
              exact lt_trans hxl hlb
          · rintro ⟨hA, hC⟩
            exact ⟨fun y hy => hA y (Or.inr hy), fun b hb => by
              cases hb
              exact hA l (Or.inl rfl)⟩
        · have himp : improved l (some b0) = false := by
            simp [improved, hlb]
          simp only [himp, if_false, Bool.false_eq_true]
          constructor
          · rintro ⟨hA, hC⟩
            have hxb : ls.getD i 0 < b0 := hC b0 rfl
            have hxl : ls.getD i 0 < l := lt_of_lt_of_le hxb (le_of_not_lt hlb)
            refine ⟨fun y hy => ?_, fun b hb => ?_⟩
            · rcases hy with rfl | hy
              · exact hxl
              · exact hA y hy
            · cases hb
              exact hxb
          · rintro ⟨hA, hC⟩
            exact ⟨fun y hy => hA y (Or.inr hy), hC⟩

/-! ### C2: the optimized and recorded loss -/

/-- C2: for every training batch and every validation batch, the loss that
is optimized and recorded equals the mean-squared error between the 3-D
end-effector positions decoded from the policy output (trajectory
decoding, reshaping, last joint pose, unnormalisation by
`(MAX_ANGLE - MIN_ANGLE) * x + MIN_ANGLE`, forward kinematics) and the
batch's target coordinates. -/
theorem batch_loss_is_mse_of_decoded_end_pose (M : Models P) (acc : TrainAcc P)
    (va : ValAcc) (params : P) (batch : List Sample) :
    (trainBatchStep M acc batch).train_losses = acc.train_losses ++
        [mse_loss (batch.map fun s => endPoseOf M acc.params s.1)
          (batch.map Prod.snd)] ∧
      (valBatchStep M params va batch).val_losses = va.val_losses ++
        [mse_loss (batch.map fun s => endPoseOf M params s.1)
          (batch.map Prod.snd)] := by
  constructor <;>
    simp [trainBatchStep, valBatchStep, endPoseOf, List.map_map, Function.comp_def]

/-! ### C9: the double append in the validation loop -/

theorem valFold_twice (M : Models P) (params : P) :
    ∀ (batches : List (List Sample)) (acc : ValAcc),
      acc.end_poses.flatten.length = 2 * acc.target_poses.flatten.length →
      (batches.foldl (valBatchStep M params) acc).end_poses.flatten.length =
        2 * (batches.foldl (valBatchStep M params) acc).target_poses.flatten.length := by
  intro batches
  induction batches with
  | nil =>
    intro acc h
    simpa using h
  | cons b bs ih =>
    intro acc h
    simp only [List.foldl_cons]
    apply ih
    simp only [valBatchStep, List.flatten_append, List.length_append,
      List.flatten_cons, List.flatten_nil, List.length_map]
    omega

/-- C9: every validation batch appends the predicted pose array twice
(source lines 164 and 167) but the target array once, so the concatenated
validation pose array handed to `plot_scatter` has exactly twice as many
rows as the concatenated validation target array. -/
theorem val_poses_twice_targets (M : Models P) (params : P)
    (batches : List (List Sample)) (lat0 : List (List Vec)) :
    (∀ (acc : ValAcc) (batch : List Sample),
        (valBatchStep M params acc batch).end_poses =
          acc.end_poses ++ [batch.map fun s => endPoseOf M params s.1] ++
            [batch.map fun s => endPoseOf M params s.1] ∧
        (valBatchStep M params acc batch).target_poses =
          acc.target_poses ++ [batch.map Prod.snd]) ∧
      (batches.foldl (valBatchStep M params)
          { val_losses := [], end_poses := [], target_poses := [],
            latents := lat0 }).end_poses.flatten.length =
        2 * (batches.foldl (valBatchStep M params)
          { val_losses := [], end_poses := [], target_poses := [],
            latents := lat0 }).target_poses.flatten.length := by
  constructor
  · intro acc batch
    constructor <;>
      simp [valBatchStep, endPoseOf, List.map_map, Function.comp_def]
  · exact valFold_twice M params batches _ (by simp)

/-! ### Inversion facts about the epoch loop -/

theorem exceptBind_ok {ε α β : Type} {x : Except ε α} {f : α → Except ε β} {b : β}
    (h : x >>= f = .ok b) : ∃ a, x = .ok a ∧ f a = .ok b := by
  cases x with
  | error e => simp [Bind.bind, Except.bind] at h
  | ok a =>
    refine ⟨a, rfl, ?_⟩
    simpa [Bind.bind, Except.bind] using h

theorem exceptBind_error {ε α β : Type} {x : Except ε α} {f : α → Except ε β} {e : ε}
    (h : x >>= f = .error e) : x = .error e ∨ ∃ a, x = .ok a ∧ f a = .error e := by
  cases x with
  | error e0 =>
    left
    simpa [Bind.bind, Except.bind] using h
  | ok a =>
    right
    refine ⟨a, rfl, ?_⟩
    simpa [Bind.bind, Except.bind] using h

theorem np_concatenate_eq_ok {α : Type} (l : List (List α)) (h : l ≠ []) :
    np_concatenate l = .ok l.flatten := by
  simp [np_concatenate, h]

theorem np_concatenate_error {α : Type} {l : List (List α)} {e : PyErr}
    (h : np_concatenate l = .error e) : ∃ m, e = PyErr.libraryError m := by
  unfold np_concatenate at h
  by_cases hl : l.isEmpty
  · rw [if_pos hl] at h
    exact ⟨_, (Except.error.inj h).symm⟩
  · rw [if_neg hl] at h
    exact absurd h (by simp)

theorem random_split_error {α : Type} {ds : List α} {n1 n2 : ℕ} {e : PyErr}
    (h : random_split ds n1 n2 = .error e) : ∃ m, e = PyErr.libraryError m := by
  unfold random_split at h
  by_cases hc : n1 + n2 = ds.length
  · rw [if_pos hc] at h
    exact absurd h (by simp)
  · rw [if_neg hc] at h
    exact ⟨_, (Except.error.inj h).symm⟩

theorem data_loader_batches_error {α : Type} {bs : ℕ} {xs : List α} {e : PyErr}
    (h : data_loader_batches bs xs = .error e) : ∃ m, e = PyErr.libraryError m := by
  unfold data_loader_batches at h
  by_cases hc : bs = 0
  · rw [if_pos hc] at h
    exact ⟨_, (Except.error.inj h).symm⟩
  · rw [if_neg hc] at h
    exact absurd h (by simp)

theorem trainFold_lens (M : Models P) :
    ∀ (batches : List (List Sample)) (acc : TrainAcc P),
      ((batches.foldl (trainBatchStep M) acc).end_poses.length =
          acc.end_poses.length + batches.length) ∧
        ((batches.foldl (trainBatchStep M) acc).target_poses.length =
          acc.target_poses.length + batches.length) ∧
        ((batches.foldl (trainBatchStep M) acc).latents.length =
          acc.latents.length + batches.length) := by
  intro batches
  induction batches with
  | nil =>
    intro acc
    simp
  | cons b bs ih =>
    intro acc
    simp only [List.foldl_cons]
    obtain ⟨h1, h2, h3⟩ := ih (trainBatchStep M acc b)
    rw [h1, h2, h3]
    simp [trainBatchStep]
    omega

theorem valFold_lens (M : Models P) (params : P) :
    ∀ (batches : List (List Sample)) (acc : ValAcc),
      ((batches.foldl (valBatchStep M params) acc).end_poses.length =
          acc.end_poses.length + 2 * batches.length) ∧
        ((batches.foldl (valBatchStep M params) acc).target_poses.length =
          acc.target_poses.length + batches.length) ∧
        ((batches.foldl (valBatchStep M params) acc).latents.length =
          acc.latents.length + batches.length) := by
  intro batches
  induction batches with
  | nil =>
    intro acc
    simp
  | cons b bs ih =>
    intro acc
    simp only [List.foldl_cons]
    obtain ⟨h1, h2, h3⟩ := ih (valBatchStep M params acc b)
    rw [h1, h2, h3]
    simp [valBatchStep]
    omega

theorem runEpoch_ok_shape (M : Models P) (tb vb : List (List Sample))
    (st : RunState P) (htb : tb ≠ []) (hvb : vb ≠ []) :
    ∃ (p2 : P) (atrain aval : ℚ),
      runEpoch M tb vb st = .ok
        { params := p2
          best_val := if improved aval st.best_val then some aval else st.best_val
          avg_train_losses := st.avg_train_losses ++ [atrain]
          avg_val_losses := st.avg_val_losses ++ [aval]
          save_log := st.save_log ++ [improved aval st.best_val]
          files := (if improved aval st.best_val then st.files ++ ["model.pth.tar"]
            else st.files) ++ plot_files
          epochs := st.epochs + 1 } := by
  have htbl : 0 < tb.length := List.length_pos.mpr htb
  have hvbl : 0 < vb.length := List.length_pos.mpr hvb
  set ta := tb.foldl (trainBatchStep M)
    { params := st.params, train_losses := [], end_poses := []
      target_poses := [], latents := [] } with hta
  set va := vb.foldl (valBatchStep M ta.params)
    { val_losses := [], end_poses := [], target_poses := []
      latents := ta.latents } with hva
  obtain ⟨ht1, ht2, ht3⟩ := trainFold_lens M tb
    { params := st.params, train_losses := [], end_poses := []
      target_poses := [], latents := [] }
  obtain ⟨hv1, hv2, hv3⟩ := valFold_lens M ta.params vb
    { val_losses := [], end_poses := [], target_poses := []
      latents := ta.latents }
  rw [← hta] at ht1 ht2 ht3
  rw [← hva] at hv1 hv2 hv3
  have h1 : ta.end_poses ≠ [] := by
    rw [← List.length_pos]
    omega
  have h2 : ta.target_poses ≠ [] := by
    rw [← List.length_pos]
    omega
  have h3 : va.end_poses ≠ [] := by
    rw [← List.length_pos]
    omega
  have h4 : va.target_poses ≠ [] := by
    rw [← List.length_pos]
    omega
  have h5 : va.latents ≠ [] := by
    rw [← List.length_pos]
    omega
  refine ⟨ta.params, np_mean ta.train_losses, np_mean va.val_losses, ?_⟩
  simp only [runEpoch]
  rw [← hta, ← hva]
  rw [np_concatenate_eq_ok _ h1, np_concatenate_eq_ok _ h2,
    np_concatenate_eq_ok _ h3, np_concatenate_eq_ok _ h4,
    np_concatenate_eq_ok _ h5]
  rfl

theorem runEpoch_ok_exists (M : Models P) (tb vb : List (List Sample))
    (st : RunState P) (htb : tb ≠ []) (hvb : vb ≠ []) :
    ∃ st2, runEpoch M tb vb st = .ok st2 ∧ st2.epochs = st.epochs + 1 := by
  obtain ⟨p2, atrain, aval, h⟩ := runEpoch_ok_shape M tb vb st htb hvb
  exact ⟨_, h, rfl⟩

theorem runEpoch_ok_inv (M : Models P) (tb vb : List (List Sample))
    (st st' : RunState P) (hok : runEpoch M tb vb st = .ok st') :
    ∃ aval : ℚ,
      st'.files = (if improved aval st.best_val then st.files ++ ["model.pth.tar"]
          else st.files) ++ plot_files ∧
        st'.epochs = st.epochs + 1 ∧
        st'.save_log = st.save_log ++ [improved aval st.best_val] ∧
        st'.avg_val_losses = st.avg_val_losses ++ [aval] ∧
        st'.best_val = (if improved aval st.best_val then some aval
          else st.best_val) := by
  simp only [runEpoch] at hok
  obtain ⟨v1, hc1, hok⟩ := exceptBind_ok hok
  obtain ⟨v2, hc2, hok⟩ := exceptBind_ok hok
  obtain ⟨v3, hc3, hok⟩ := exceptBind_ok hok
  obtain ⟨v4, hc4, hok⟩ := exceptBind_ok hok
  obtain ⟨v5, hc5, hok⟩ := exceptBind_ok hok
  injection hok with hok
  subst hok
  exact ⟨_, rfl, rfl, rfl, rfl, rfl⟩

theorem runEpoch_no_assert (M : Models P) (tb vb : List (List Sample))
    (st : RunState P) : runEpoch M tb vb st ≠ .error PyErr.assertionError := by
  intro h
  simp only [runEpoch] at h
  rcases exceptBind_error h with h | ⟨v1, hc1, h⟩
  · obtain ⟨m, hm⟩ := np_concatenate_error h
    simp at hm
  rcases exceptBind_error h with h | ⟨v2, hc2, h⟩
  · obtain ⟨m, hm⟩ := np_concatenate_error h
    simp at hm
  rcases exceptBind_error h with h | ⟨v3, hc3, h⟩
  · obtain ⟨m, hm⟩ := np_concatenate_error h
    simp at hm
  rcases exceptBind_error h with h | ⟨v4, hc4, h⟩
  · obtain ⟨m, hm⟩ := np_concatenate_error h
    simp at hm
  rcases exceptBind_error h with h | ⟨v5, hc5, h⟩
  · obtain ⟨m, hm⟩ := np_concatenate_error h
    simp at hm
  exact Except.noConfusion h

theorem exceptOkBind {ε α β : Type} (a : α) (f : α → Except ε β) :
    (Except.ok a >>= f : Except ε β) = f a := rfl

theorem foldEpochs_ok (M : Models P) (tb vb : List (List Sample))
    (htb : tb ≠ []) (hvb : vb ≠ []) :
    ∀ (N : ℕ) (st : RunState P),
      ∃ st', (List.range N).foldlM (fun s _ => runEpoch M tb vb s) st = .ok st' ∧
        st'.epochs = st.epochs + N := by
  intro N
  induction N with
  | zero =>
    intro st
    exact ⟨st, rfl, rfl⟩
  | succ N ih =>
    intro st
    obtain ⟨st1, h1, he1⟩ := ih st
    obtain ⟨st2, h2, he2⟩ := runEpoch_ok_exists M tb vb st1 htb hvb
    refine ⟨st2, ?_, by omega⟩
    rw [List.range_succ, List.foldlM_append, h1]
    simp [h2, exceptOkBind]

theorem foldEpochs_files_mono (M : Models P) (tb vb : List (List Sample)) :
    ∀ (l : List ℕ) (st st' : RunState P),
      l.foldlM (fun s _ => runEpoch M tb vb s) st = .ok st' →
      ∀ x ∈ st.files, x ∈ st'.files := by
  intro l
  induction l with
  | nil =>
    intro st st' h x hx
    injection h with h
    subst h
    exact hx
  | cons a l ih =>
    intro st st' h x hx
    rw [List.foldlM_cons] at h
    obtain ⟨s1, hs1, h⟩ := exceptBind_ok h
    obtain ⟨aval, hf, _, _, _, _⟩ := runEpoch_ok_inv M tb vb st s1 hs1
    refine ih s1 st' h x ?_
    rw [hf]
    refine List.mem_append_left _ ?_
    split
    · exact List.mem_append_left _ hx
    · exact hx

theorem foldEpochs_no_assert (M : Models P) (tb vb : List (List Sample)) :
    ∀ (l : List ℕ) (st : RunState P),
      l.foldlM (fun s _ => runEpoch M tb vb s) st ≠ .error PyErr.assertionError := by
  intro l
  induction l with
  | nil =>
    intro st h
    exact Except.noConfusion h
  | cons a l ih =>
    intro st h
    rw [List.foldlM_cons] at h
    rcases exceptBind_error h with h1 | ⟨s1, hs1, h1⟩
    · exact runEpoch_no_assert M tb vb st h1
    · exact ih s1 h1

theorem foldEpochs_log (M : Models P) (tb vb : List (List Sample)) :
    ∀ (l : List ℕ) (st st' : RunState P),
      l.foldlM (fun s _ => runEpoch M tb vb s) st = .ok st' →
      ∃ suffix : List ℚ,
        st'.avg_val_losses = st.avg_val_losses ++ suffix ∧
        st'.save_log = st.save_log ++ saveFlagsAux st.best_val suffix := by
  intro l
  induction l with
  | nil =>
    intro st st' h
    injection h with h
    subst h
    exact ⟨[], by simp, by simp [saveFlagsAux]⟩
  | cons a l ih =>
    intro st st' h
    rw [List.foldlM_cons] at h
    obtain ⟨s1, hs1, h⟩ := exceptBind_ok h
    obtain ⟨aval, _, _, hsl, hav, hbv⟩ := runEpoch_ok_inv M tb vb st s1 hs1
    obtain ⟨suf, h1, h2⟩ := ih s1 st' h
    refine ⟨aval :: suf, ?_, ?_⟩
    · rw [h1, hav]
      simp
    · rw [h2, hsl, hbv]
      simp [saveFlagsAux]

theorem chunksAux_ne_nil {α : Type} (bs : ℕ) (xs : List α) (h : xs ≠ []) :
    chunksAux bs xs.length xs ≠ [] := by
  cases xs with
  | nil => exact absurd rfl h
  | cons x xs => simp [chunksAux]

theorem runMain_completes (M : Models P) (p0 : P) (a : Args) (ds : List Sample)
    (hmi : 0 < a.model_index) (hbs : a.batch_size ≠ 0)
    (htr : 1 ≤ train_size ds.length) :
    ∃ st, runMain M p0 a ds = .ok st ∧ st.epochs = a.num_epoch := by
  have hn1 : 1 ≤ ds.length := le_trans htr (train_size_le ds.length)
  have hlt : train_size ds.length < ds.length := train_size_lt ds.length hn1
  have htake : (ds.take (train_size ds.length)).length = train_size ds.length := by
    rw [List.length_take]
    exact min_eq_left (train_size_le ds.length)
  have hdrop : (ds.drop (train_size ds.length)).length =
      ds.length - train_size ds.length := List.length_drop _ _
  have htrne : ds.take (train_size ds.length) ≠ [] := by
    rw [← List.length_pos]
    omega
  have htene : ds.drop (train_size ds.length) ≠ [] := by
    rw [← List.length_pos]
    omega
  have hsplit : random_split ds (train_size ds.length) (test_size ds.length) =
      .ok (ds.take (train_size ds.length), ds.drop (train_size ds.length)) := by
    unfold random_split
    rw [if_pos (train_size_add_test_size ds.length)]
  have hdl1 : data_loader_batches a.batch_size (ds.take (train_size ds.length)) =
      .ok (chunksAux a.batch_size (ds.take (train_size ds.length)).length
        (ds.take (train_size ds.length))) := by
    unfold data_loader_batches
    rw [if_neg hbs]
  have hbs2 : (ds.drop (train_size ds.length)).length ≠ 0 := by omega
  have hdl2 : data_loader_batches (ds.drop (train_size ds.length)).length
      (ds.drop (train_size ds.length)) =
      .ok (chunksAux (ds.drop (train_size ds.length)).length
        (ds.drop (train_size ds.length)).length (ds.drop (train_size ds.length))) := by
    unfold data_loader_batches
    rw [if_neg hbs2]
  have htbne := chunksAux_ne_nil a.batch_size (ds.take (train_size ds.length)) htrne
  have hvbne := chunksAux_ne_nil (ds.drop (train_size ds.length)).length
    (ds.drop (train_size ds.length)) htene
  obtain ⟨st, hfold, hep⟩ := foldEpochs_ok M
    (chunksAux a.batch_size (ds.take (train_size ds.length)).length
      (ds.take (train_size ds.length)))
    (chunksAux (ds.drop (train_size ds.length)).length
      (ds.drop (train_size ds.length)).length (ds.drop (train_size ds.length)))
    htbne hvbne a.num_epoch
    { params := p0, best_val := none, avg_train_losses := []
      avg_val_losses := [], save_log := [], files := ["arguments.txt"], epochs := 0 }
  simp only at hep
  refine ⟨st, ?_, by omega⟩
  simp only [runMain]
  rw [if_neg (not_not_intro hmi)]
  simp only [pure_bind]
  rw [hsplit]
  simp only [exceptOkBind]
  rw [hdl1]
  simp only [exceptOkBind]
  rw [hdl2]
  simp only [exceptOkBind]
  exact hfold

/-! ### C3: the epoch loop -/

/-- C3 counterexample: with a well-formed non-empty dataset of size one
(and one epoch requested), `main` does not complete: `train_size = int(1 * 0.7)
= 0`, the training split is empty, the training loop body never runs, and
`np.concatenate` on the empty list of per-batch pose arrays (line 131)
raises `ValueError`. -/
theorem train_loop_crashes_on_singleton_dataset :
    runMain trivialModels () (baseArgs 1 1) [sampleZero] =
      .error (PyErr.libraryError ("ValueError: need at least one array to concatenate")) := by
  rfl

/-- C3 (amended): for every epoch count `N` and every dataset whose
training split is non-empty (`1 ≤ train_size n`, which requires `n ≥ 2`;
size 1 gives an empty training split and a crash), and well-formed
arguments (`model_index > 0` so the assert passes, positive
`batch_size`), `main`'s loop executes exactly `N` epoch iterations and
completes without raising an exception. -/
theorem train_loop_runs_num_epoch_epochs (M : Models P) (p0 : P) (a : Args)
    (ds : List Sample) (hmi : 0 < a.model_index) (hbs : a.batch_size ≠ 0)
    (htr : 1 ≤ train_size ds.length) :
    ∃ st, runMain M p0 a ds = .ok st ∧ st.epochs = a.num_epoch :=
  runMain_completes M p0 a ds hmi hbs htr

/-- Witness for C3 at two epochs over a three-sample dataset. -/
theorem train_loop_runs_num_epoch_epochs_witness :
    ∃ st, runMain trivialModels () (baseArgs 2 1) (List.replicate 3 sampleZero) =
      .ok st ∧ st.epochs = 2 :=
  train_loop_runs_num_epoch_epochs trivialModels () (baseArgs 2 1)
    (List.replicate 3 sampleZero) (by decide) (by decide) (by decide)

/-! ### C4: error behaviour -/

/-- C4 counterexample: the script does raise a program-specific error
before any library call: `assert(args.model_index > 0)` (line 46) fires
for the parser default `model_index = -1`, so the run fails with
`AssertionError` rather than a library-level exception. -/
theorem assert_model_index_raises_before_library :
    runMain trivialModels () (baseArgs 1 (-1)) [sampleZero] =
      .error PyErr.assertionError := by
  rfl

/-- C4 (amended): apart from the single startup assertion on
`model_index`, the program performs no custom error checking or recovery:
once the assert passes, no code path raises a program-specific error — any
failure of a run is a library-level exception propagated unchanged. -/
theorem only_library_errors_after_assert (M : Models P) (p0 : P) (a : Args)
    (ds : List Sample) (hmi : 0 < a.model_index) :
    runMain M p0 a ds ≠ .error PyErr.assertionError := by
  intro h
  simp only [runMain] at h
  rw [if_neg (not_not_intro hmi)] at h
  simp only [pure_bind] at h
  rcases exceptBind_error h with h1 | ⟨p, hp, h1⟩
  · obtain ⟨m, hm⟩ := random_split_error h1
    simp at hm
  obtain ⟨t, v⟩ := p
  rcases exceptBind_error h1 with h2 | ⟨tbv, htb, h2⟩
  · obtain ⟨m, hm⟩ := data_loader_batches_error h2
    simp at hm
  rcases exceptBind_error h2 with h3 | ⟨vbv, hvb, h3⟩
  · obtain ⟨m, hm⟩ := data_loader_batches_error h3
    simp at hm
  exact foldEpochs_no_assert M tbv vbv _ _ h3

/-- Witness for C4: with the assert satisfied, a run never fails with the
script's own `AssertionError`. -/
theorem only_library_errors_after_assert_witness :
    runMain trivialModels () (baseArgs 1 1) (List.replicate 3 sampleZero) ≠
      .error PyErr.assertionError :=
  only_library_errors_after_assert trivialModels () (baseArgs 1 1)
    (List.replicate 3 sampleZero) (by decide)

/-! ### C5: files in the output directory -/

/-- C5 counterexample: a run with `--num-epoch 0` completes but writes
only `arguments.txt`: no checkpoint `model.pth.tar` and no plots, because
checkpointing and plotting happen inside the epoch loop. -/
theorem zero_epoch_run_writes_no_checkpoint :
    runMain trivialModels () (baseArgs 0 1) (List.replicate 3 sampleZero) =
      .ok { params := (), best_val := none, avg_train_losses := []
            avg_val_losses := [], save_log := [], files := ["arguments.txt"]
            epochs := 0 } ∧
      "model.pth.tar" ∉ (["arguments.txt"] : List String) := by
  constructor
  · rfl
  · decide

/-- C5 (amended): after any completed run with at least one epoch, the
output directory `../policy_log/<policy-name>` contains the saved
arguments file, the checkpoint `model.pth.tar` (the first epoch always
improves on `np.inf`), and the six PNG plots (train/val/full scatter,
latent distributions, and the two loss curves). -/
theorem completed_run_output_files (M : Models P) (p0 : P) (a : Args)
    (ds : List Sample) (st : RunState P) (hN : 1 ≤ a.num_epoch)
    (hok : runMain M p0 a ds = .ok st) :
    "arguments.txt" ∈ st.files ∧ "model.pth.tar" ∈ st.files ∧
      "train_scatter.png" ∈ st.files ∧ "val_scatter.png" ∈ st.files ∧
      "full_scatter.png" ∈ st.files ∧ "latents_distribution.png" ∈ st.files ∧
      "avg_mse.png" ∈ st.files ∧ "avg_log_mse.png" ∈ st.files := by
  simp only [runMain] at hok
  by_cases hmi : 0 < a.model_index
  · rw [if_neg (not_not_intro hmi)] at hok
    simp only [pure_bind] at hok
    obtain ⟨⟨t, v⟩, hsp, hok⟩ := exceptBind_ok hok
    obtain ⟨tbv, htb, hok⟩ := exceptBind_ok hok
    obtain ⟨vbv, hvb, hok⟩ := exceptBind_ok hok
    obtain ⟨N1, hN1⟩ : ∃ N1, a.num_epoch = N1 + 1 := ⟨a.num_epoch - 1, by omega⟩
    rw [hN1, List.range_succ_eq_map, List.foldlM_cons] at hok
    obtain ⟨st1, hst1, hok⟩ := exceptBind_ok hok
    obtain ⟨aval, hf, hep, hsl, hav, hbv⟩ := runEpoch_ok_inv M tbv vbv _ st1 hst1
    simp only at hf
    have himp : improved aval (none : Option ℚ) = true := rfl
    rw [himp] at hf
    simp only [if_pos] at hf
    have hmono := foldEpochs_files_mono M tbv vbv _ st1 st hok
    refine ⟨?_, ?_, ?_, ?_, ?_, ?_, ?_, ?_⟩ <;>
      exact hmono _ (by rw [hf]; decide)
  · rw [if_pos hmi] at hok
    exact Except.noConfusion hok

/-- Witness for C5 on a one-epoch run over a three-sample dataset. -/
theorem completed_run_output_files_witness :
    ∃ st, runMain trivialModels () (baseArgs 1 1) (List.replicate 3 sampleZero) =
        .ok st ∧ "arguments.txt" ∈ st.files ∧ "model.pth.tar" ∈ st.files ∧
        "avg_log_mse.png" ∈ st.files := by
  obtain ⟨st, hok, _⟩ := runMain_completes trivialModels () (baseArgs 1 1)
    (List.replicate 3 sampleZero) (by decide) (by decide) (by decide)
  obtain ⟨h1, h2, h3, h4, h5, h6, h7, h8⟩ := completed_run_output_files
    trivialModels () (baseArgs 1 1) (List.replicate 3 sampleZero) st
    (by decide) hok
  exact ⟨st, hok, h1, h2, h8⟩

/-! ### C6: shape of the loaded dataset -/

theorem zip_getD {α β : Type} (dx : α) (dy : β) :
    ∀ (a : List α) (b : List β) (i : ℕ), i < a.length → i < b.length →
      (a.zip b).getD i (dx, dy) = (a.getD i dx, b.getD i dy) := by
  intro a
  induction a with
  | nil =>
    intro b i h1 h2
    simp at h1
  | cons x xs ih =>
    intro b i h1 h2
    cases b with
    | nil => simp at h2
    | cons y ys =>
      cases i with
      | zero => simp
      | succ i =>
        simp only [List.zip_cons_cons, List.getD_cons_succ]
        exact ih ys i (by simpa using h1) (by simpa using h2)

/-- C6: with debug off, the dataset built by `load_dataset` pairs, for
every index `i`, the first middle-axis slice of stored-latents row `i`
with target-coordinate row `i`; the 3-dimensionality of the targets is
inherited from the data (the code imposes no structural check beyond the
library's equal-length assertion). -/
theorem load_dataset_elements (latents3 : List (List Vec)) (target_coord : List Vec)
    (hrows : ∀ row ∈ latents3, row ≠ [])
    (hlen : latents3.length = target_coord.length) :
    ∃ ds, load_dataset latents3 target_coord false [] = .ok ds ∧
      ds.length = latents3.length ∧
      (∀ i, i < ds.length →
        ds.getD i ([], []) = ((latents3.getD i []).headD [], target_coord.getD i [])) ∧
      ((∀ v ∈ target_coord, v.length = 3) → ∀ s ∈ ds, s.2.length = 3) := by
  have hcond : (latents3.all fun row => ¬ row.isEmpty) = true := by
    simp only [List.all_eq_true, decide_eq_true_eq]
    intro row hrow
    simpa [List.isEmpty_iff] using hrows row hrow
  have hslice : sliceMiddleFirst latents3 =
      .ok (latents3.map fun row => row.headD []) := by
    unfold sliceMiddleFirst
    rw [if_pos hcond]
  have hlen2 : (latents3.map fun row => row.headD []).length = target_coord.length := by
    simpa using hlen
  have hds : load_dataset latents3 target_coord false [] =
      .ok ((latents3.map fun row => row.headD []).zip target_coord) := by
    unfold load_dataset
    rw [hslice]
    simp only [exceptOkBind, Bool.false_eq_true, if_false]
    unfold tensor_dataset
    rw [if_pos hlen2]
  refine ⟨_, hds, ?_, ?_, ?_⟩
  · simp [List.length_zip]
    omega
  · intro i hi
    have hiz : i < ((latents3.map fun row => row.headD []).zip target_coord).length := hi
    rw [List.length_zip, hlen2, min_self] at hiz
    rw [zip_getD [] [] _ _ i (by rw [hlen2]; exact hiz) hiz]
    have hil : i < latents3.length := by omega
    rw [List.getD_eq_getElem _ _ (by simpa using hil), List.getElem_map,
      ← List.getD_eq_getElem _ _ hil]
  · intro h3 s hs
    exact h3 _ (List.of_mem_zip hs).2

/-- Witness for C6 on a concrete two-sample store. -/
theorem load_dataset_elements_witness :
    ∃ ds, load_dataset [[[1, 2]], [[3, 4]]] [[5, 6, 7], [8, 9, 10]] false [] =
        .ok ds ∧
      ds.length = 2 ∧
      (∀ i, i < ds.length →
        ds.getD i ([], []) =
          ((([[[1, 2]], [[3, 4]]] : List (List Vec)).getD i []).headD [],
            ([[5, 6, 7], [8, 9, 10]] : List Vec).getD i [])) ∧
      ((∀ v ∈ ([[5, 6, 7], [8, 9, 10]] : List Vec), v.length = 3) →
        ∀ s ∈ ds, s.2.length = 3) := by
  obtain ⟨ds, h1, h2, h3, h4⟩ := load_dataset_elements [[[1, 2]], [[3, 4]]]
    [[5, 6, 7], [8, 9, 10]] (by decide) (by decide)
  exact ⟨ds, h1, by rw [h2]; rfl, h3, h4⟩

/-! ### C7: the 70/30 split -/

/-- C7 counterexample: the training-set size is `int(n * 0.7)` evaluated
in IEEE-754 double arithmetic, not `floor(0.7 * n)`: at `n = 90` the
double product is `62.99999999999999`, so `train_size 90 = 62` while
`floor(0.7 * 90) = 63`. -/
theorem train_size_ninety_ne_floor :
    train_size 90 = 62 ∧ 7 * 90 / 10 = 63 ∧ ¬ train_size 90 = 7 * 90 / 10 := by
  refine ⟨by decide, by decide, by decide⟩

/-- C7 (amended): `main` splits the loaded dataset into a training set of
exactly `int(0.7 * n)` elements (float arithmetic: one less than
`floor(0.7 * n)` for some `n`, e.g. 90) and a test set of the remaining
`n - int(0.7 * n)` elements; the sizes sum to `n` and the two subsets
partition the dataset (their concatenation is the whole permuted
dataset). -/
theorem random_split_partition (ds : List Sample) :
    random_split ds (train_size ds.length) (test_size ds.length) =
      .ok (ds.take (train_size ds.length), ds.drop (train_size ds.length)) ∧
      (ds.take (train_size ds.length)).length = train_size ds.length ∧
      (ds.drop (train_size ds.length)).length = test_size ds.length ∧
      train_size ds.length + test_size ds.length = ds.length ∧
      ds.take (train_size ds.length) ++ ds.drop (train_size ds.length) = ds := by
  refine ⟨?_, ?_, ?_, train_size_add_test_size _, List.take_append_drop _ _⟩
  · unfold random_split
    rw [if_pos (train_size_add_test_size _)]
  · rw [List.length_take]
    exact min_eq_left (train_size_le _)
  · rw [List.length_drop]
    rfl

/-! ### C8: the debug subsample -/

/-- C8 (code bug): `np.random.random_integers(0, len(latents), 10)` draws
from the CLOSED interval `[0, len(latents)]`, so the draw can contain
`len(latents)` itself — an out-of-bounds index.  On a five-row latents
array the possible draw `[5, 0, ..., 0]` makes `latents[indices]` raise
`IndexError` instead of returning a 10-pair dataset. -/
theorem debug_draw_can_exceed_bounds :
    random_integers_possible 0 5 10 [5, 0, 0, 0, 0, 0, 0, 0, 0, 0] ∧
      load_dataset latentsFive targetFive true [5, 0, 0, 0, 0, 0, 0, 0, 0, 0] =
        .error (PyErr.libraryError ("IndexError: index is out of bounds for axis 0")) := by
  constructor
  · constructor
    · rfl
    · decide
  · rfl

/-! ### C1: the checkpoint decision over a whole run -/

/-- C1: the policy checkpoint `model.pth.tar` is (re)written in an epoch
if and only if that epoch's average validation loss is strictly smaller
than the average validation loss of every previous epoch (the running best
starts at `np.inf`, modelled by `none`); in all other epochs the
checkpoint file is left untouched.  `saveFlags L` is the per-epoch write
decision of lines 75 and 179-181 for a sequence `L` of per-epoch average
validation losses, and in every completed run of `main` the recorded
write decisions are exactly `saveFlags` of the recorded average
validation losses. -/
theorem checkpoint_saves_iff_strict_improvement (L : List ℚ) (i : ℕ)
    (h : i < L.length) (M : Models P) (p0 : P) (a : Args) (ds : List Sample)
    (st : RunState P) (hok : runMain M p0 a ds = .ok st) :
    ((saveFlags L).getD i false = true ↔ ∀ y ∈ L.take i, L.getD i 0 < y) ∧
      st.save_log = saveFlags st.avg_val_losses := by
  constructor
  · have key := saveFlagsAux_getD L none i h
    simpa [saveFlags] using key
  · simp only [runMain] at hok
    by_cases hmi : 0 < a.model_index
    · rw [if_neg (not_not_intro hmi)] at hok
      simp only [pure_bind] at hok
      obtain ⟨⟨t, v⟩, hsp, hok⟩ := exceptBind_ok hok
      obtain ⟨tbv, htb, hok⟩ := exceptBind_ok hok
      obtain ⟨vbv, hvb, hok⟩ := exceptBind_ok hok
      obtain ⟨suf, h1, h2⟩ := foldEpochs_log M tbv vbv _ _ st hok
      rw [h1, h2]
      simp [saveFlags]
    · rw [if_pos hmi] at hok
      exact Except.noConfusion hok

/-- Witness for C1: the loss sequence `[5, 3, 4, 2]` at epoch 2 (loss 4,
not a new best), over a completed one-epoch run. -/
theorem checkpoint_saves_iff_strict_improvement_witness :
    ∃ st, runMain trivialModels () (baseArgs 1 1) (List.replicate 3 sampleZero) =
        .ok st ∧
      (((saveFlags [5, 3, 4, 2]).getD 2 false = true ↔
          ∀ y ∈ ([5, 3, 4, 2] : List ℚ).take 2,
            ([5, 3, 4, 2] : List ℚ).getD 2 0 < y) ∧
        st.save_log = saveFlags st.avg_val_losses) := by
  obtain ⟨st, hok, _⟩ := runMain_completes trivialModels () (baseArgs 1 1)
    (List.replicate 3 sampleZero) (by decide) (by decide) (by decide)
  exact ⟨st, hok, checkpoint_saves_iff_strict_improvement [5, 3, 4, 2] 2 (by decide)
    trivialModels () (baseArgs 1 1) (List.replicate 3 sampleZero) st hok⟩
